import Mathlib

/-!
# Verification of the relayer proof-construction core (`utils/cosmos.rs`)

Shallow embedding of `packages/relayer-lib/src/utils/cosmos.rs`:
the event-to-message builders (`target_events_to_timeout_msgs`,
`src_events_to_recv_and_ack_msgs`), the Tendermint and Ethereum proof
injectors (`inject_tendermint_proofs`, `inject_ethereum_proofs`,
`get_commitment_proof`) and the mock injector (`inject_mock_proofs`).

Machine integers (`u64`, `U256`) are modelled as `Nat` (the source only
compares and copies them; no arithmetic that can overflow occurs).
Byte strings (`Vec<u8>`) are `List Nat`.  The async RPC clients are
modelled as oracle functions returning `Except`; the concurrent
`try_join_all` fan-out is modelled as a sequential in-order fold that
keeps the in-place mutations of messages processed before the first
failure — this agrees with the source on the success path and on the
state of every batch that completed before the failing one (batches are
awaited strictly in order recv, ack, timeout).
-/

namespace IbcEureka

/-- `ibc.core.client.v1.Height`: pair of revision number and revision height. -/
structure Height where
  revision_number : Nat
  revision_height : Nat
deriving DecidableEq, Repr

/-- `Height::default()` — the zero-value height. -/
def Height.default : Height := ⟨0, 0⟩

/-- The IBC Eureka packet (`IICS26RouterMsgs::Packet`): source client id,
destination client id, sequence, timeout timestamp (unix, u64), payloads.
The proto-side packet produced by `.into()` is identified with this value. -/
structure Packet where
  sequence : Nat
  sourceClient : String
  destClient : String
  timeoutTimestamp : Nat
  payloads : List (List Nat)
deriving DecidableEq, Repr

/-- `EurekaEvent`: `SendPacket(Packet)` or
`WriteAcknowledgement(Packet, acks)` with the ordered per-app
acknowledgement byte sequences. -/
inductive EurekaEvent where
  | SendPacket (packet : Packet)
  | WriteAcknowledgement (packet : Packet) (acks : List (List Nat))
deriving DecidableEq, Repr

/-- `EurekaEventWithHeight`: an event together with its observation height. -/
structure EurekaEventWithHeight where
  event : EurekaEvent
  height : Height
deriving DecidableEq, Repr

/-- `ibc.core.channel.v2.MsgTimeout`. -/
structure MsgTimeout where
  packet : Option Packet
  proof_height : Option Height
  proof_unreceived : List Nat
  signer : String
deriving DecidableEq, Repr

/-- `ibc.core.channel.v2.MsgRecvPacket`. -/
structure MsgRecvPacket where
  packet : Option Packet
  proof_height : Option Height
  proof_commitment : List Nat
  signer : String
deriving DecidableEq, Repr

/-- `ibc.core.channel.v2.Acknowledgement`: the list of per-app
acknowledgement byte strings. -/
structure Acknowledgement where
  app_acknowledgements : List (List Nat)
deriving DecidableEq, Repr

/-- `ibc.core.channel.v2.MsgAcknowledgement`. -/
structure MsgAcknowledgement where
  packet : Option Packet
  acknowledgement : Option Acknowledgement
  proof_height : Option Height
  proof_acked : List Nat
  signer : String
deriving DecidableEq, Repr

/-- The condition under which a `SendPacket` event produces a timeout
message (`target_events_to_timeout_msgs`, line 34):
`now >= packet.timeoutTimestamp && packet.sourceClient == target_client_id`. -/
def timeoutCondition (packet : Packet) (target_client_id : String) (now : Nat) : Bool :=
  now ≥ packet.timeoutTimestamp && packet.sourceClient == target_client_id

/-- The condition under which a `SendPacket` event is kept for the recv
batch (`src_events_to_recv_and_ack_msgs`, line 63):
`packet.timeoutTimestamp > now && packet.destClient == target_client_id`. -/
def recvCondition (packet : Packet) (target_client_id : String) (now : Nat) : Bool :=
  packet.timeoutTimestamp > now && packet.destClient == target_client_id

/-- `target_events_to_timeout_msgs` (cosmos.rs lines 23-48): filter-map over
the events, producing a `MsgTimeout` with provisional proof height and empty
proof bytes for each timed-out `SendPacket` targeting the given client. -/
def target_events_to_timeout_msgs (target_events : List EurekaEventWithHeight)
    (target_client_id : String) (target_height : Height)
    (signer_address : String) (now : Nat) : List MsgTimeout :=
  target_events.filterMap fun e => match e.event with
    | .SendPacket packet =>
        if timeoutCondition packet target_client_id now then
          some { packet := some packet, proof_height := some target_height,
                 proof_unreceived := [], signer := signer_address }
        else none
    | .WriteAcknowledgement _ _ => none

/-- The filter predicate of `src_events_to_recv_and_ack_msgs` (lines 61-66). -/
def srcEventFilter (target_client_id : String) (now : Nat)
    (e : EurekaEventWithHeight) : Bool :=
  match e.event with
  | .SendPacket packet => recvCondition packet target_client_id now
  | .WriteAcknowledgement packet _ => packet.sourceClient == target_client_id

/-- The partition predicate of `src_events_to_recv_and_ack_msgs`
(lines 67-70): `true` on `SendPacket`, `false` on `WriteAcknowledgement`. -/
def isSendPacketEvent (e : EurekaEventWithHeight) : Bool :=
  match e.event with
  | .SendPacket _ => true
  | .WriteAcknowledgement _ _ => false

/-- `src_events_to_recv_and_ack_msgs` (cosmos.rs lines 52-102): filter, then
partition into send/ack events, then map each side to its message.  The
source maps with `unreachable!()` on the impossible branch; the partition
makes that branch dead, so it is rendered as a `filterMap` dropping it. -/
def src_events_to_recv_and_ack_msgs (src_events : List EurekaEventWithHeight)
    (target_client_id : String) (target_height : Height)
    (signer_address : String) (now : Nat) :
    List MsgRecvPacket × List MsgAcknowledgement :=
  let parts :=
    (src_events.filter (srcEventFilter target_client_id now)).partition isSendPacketEvent
  let recv_msgs : List MsgRecvPacket := parts.1.filterMap fun e => match e.event with
    | .SendPacket packet =>
        some { packet := some packet, proof_height := some target_height,
               proof_commitment := [], signer := signer_address }
    | .WriteAcknowledgement _ _ => none
  let ack_msgs : List MsgAcknowledgement := parts.2.filterMap fun e => match e.event with
    | .WriteAcknowledgement packet acks =>
        some { packet := some packet,
               acknowledgement := some ⟨acks⟩,
               proof_height := some target_height,
               proof_acked := [], signer := signer_address }
    | .SendPacket _ => none
  (recv_msgs, ack_msgs)

/-! ## Proof injectors

The source injectors run async RPC calls and mutate the message slices in
place, awaiting the recv batch, then the ack batch, then the timeout
batch, each with `future::try_join_all` (first error aborts the call).
They are modelled with oracle functions for the RPC clients and explicit
state passing for the slices. -/

/-- Error kinds surfaced by the injectors.  The source uses `anyhow`
string errors and panics; each distinct exit is a constructor:
`rpc` for a `?`-propagated upstream error, `proofEmpty` for
`bail!("Membership value is empty")`, `proofNonEmpty` for
`bail!("Non-Membership value is empty")`, `malformedResponse` for the
`.first().unwrap()` panic on a response with zero storage-proof entries,
and `panicked` for the `.packet.clone().unwrap()` panic on a message
without a packet. -/
inductive InjectError where
  | rpc (e : String)
  | proofEmpty
  | proofNonEmpty
  | malformedResponse
  | panicked
deriving DecidableEq, Repr

/-- A Merkle (non-)membership proof returned by the Tendermint RPC.
Modelled from the spec: the proof is opaque to this core; only its
Protobuf byte serialization (`encode_vec`, external to `src/`) is used. -/
structure TmProof where
  bytes : List Nat
deriving DecidableEq, Repr

/-- Modelled from the spec: `Protobuf::encode_vec` of a Merkle proof
(external `ibc-proto` code); represented as the proof's byte string. -/
def TmProof.encode_vec (p : TmProof) : List Nat := p.bytes

/-- The Tendermint RPC client (`prove_path(pathSegments, atHeight)`),
returning the value at the path and a (non-)membership proof; an empty
value denotes non-membership. -/
def TmClient : Type := List (List Nat) → Nat → Except String (List Nat × TmProof)

/-- `b"ibc".to_vec()` — the module store key prepended to every path. -/
def ibcModuleBytes : List Nat := "ibc".toList.map Char.toNat

/-- Modelled from the spec: the Path Deriver's commitment path for a
packet (`Packet::commitment_path`, external `solidity-types` code) — a
deterministic byte path from the packet's identity and the commit role. -/
def commitment_path (p : Packet) : List Nat :=
  (p.sourceClient.toList.map Char.toNat) ++ [1, p.sequence]

/-- Modelled from the spec: the Path Deriver's acknowledgement path
(`Packet::ack_commitment_path`, external code). -/
def ack_commitment_path (p : Packet) : List Nat :=
  (p.destClient.toList.map Char.toNat) ++ [2, p.sequence]

/-- Modelled from the spec: the Path Deriver's receipt path
(`Packet::receipt_commitment_path`, external code). -/
def receipt_commitment_path (p : Packet) : List Nat :=
  (p.destClient.toList.map Char.toNat) ++ [3, p.sequence]

/-- One recv message of `inject_tendermint_proofs` (lines 114-130):
unwrap the packet, prove the commitment path at
`target_height.revision_height`, fail `proofEmpty` on an empty value,
else set `proof_commitment` to the encoded proof and `proof_height` to
`target_height`. -/
def tmProcessRecv (client : TmClient) (target_height : Height)
    (msg : MsgRecvPacket) : Except InjectError MsgRecvPacket :=
  match msg.packet with
  | none => .error .panicked
  | some packet =>
    match client [ibcModuleBytes, commitment_path packet] target_height.revision_height with
    | .error e => .error (.rpc e)
    | .ok (value, pf) =>
      if value.isEmpty then .error .proofEmpty
      else .ok { msg with proof_commitment := pf.encode_vec,
                          proof_height := some target_height }

/-- One ack message of `inject_tendermint_proofs` (lines 133-146). -/
def tmProcessAck (client : TmClient) (target_height : Height)
    (msg : MsgAcknowledgement) : Except InjectError MsgAcknowledgement :=
  match msg.packet with
  | none => .error .panicked
  | some packet =>
    match client [ibcModuleBytes, ack_commitment_path packet] target_height.revision_height with
    | .error e => .error (.rpc e)
    | .ok (value, pf) =>
      if value.isEmpty then .error .proofEmpty
      else .ok { msg with proof_acked := pf.encode_vec,
                          proof_height := some target_height }

/-- One timeout message of `inject_tendermint_proofs` (lines 149-165):
fail `proofNonEmpty` when the receipt value is NOT empty, else set
`proof_unreceived` and `proof_height`. -/
def tmProcessTimeout (client : TmClient) (target_height : Height)
    (msg : MsgTimeout) : Except InjectError MsgTimeout :=
  match msg.packet with
  | none => .error .panicked
  | some packet =>
    match client [ibcModuleBytes, receipt_commitment_path packet] target_height.revision_height with
    | .error e => .error (.rpc e)
    | .ok (value, pf) =>
      if !value.isEmpty then .error .proofNonEmpty
      else .ok { msg with proof_unreceived := pf.encode_vec,
                          proof_height := some target_height }

/-- Sequential model of `future::try_join_all` over one batch of messages
mutated in place: messages before the first failure keep their updates,
the failing message and the rest of the batch are left as given, and the
first error (in batch order) is reported. -/
def processBatch {α : Type} (f : α → Except InjectError α) :
    List α → List α × Option InjectError
  | [] => ([], none)
  | m :: ms =>
    match f m with
    | .ok m' =>
      let r := processBatch f ms
      (m' :: r.1, r.2)
    | .error e => (m :: ms, some e)

/-- `inject_tendermint_proofs` (cosmos.rs lines 107-169): process the recv
batch, then on success the ack batch, then the timeout batch; the first
error aborts the call, leaving the later batches untouched.  Returns the
final state of the three slices and the call's result. -/
def inject_tendermint_proofs (recv_msgs : List MsgRecvPacket)
    (ack_msgs : List MsgAcknowledgement) (timeout_msgs : List MsgTimeout)
    (source_tm_client : TmClient) (target_height : Height) :
    List MsgRecvPacket × List MsgAcknowledgement × List MsgTimeout × Option InjectError :=
  let r := processBatch (tmProcessRecv source_tm_client target_height) recv_msgs
  match r.2 with
  | some e => (r.1, ack_msgs, timeout_msgs, some e)
  | none =>
    let a := processBatch (tmProcessAck source_tm_client target_height) ack_msgs
    match a.2 with
    | some e => (r.1, a.1, timeout_msgs, some e)
    | none =>
      let t := processBatch (tmProcessTimeout source_tm_client target_height) timeout_msgs
      (r.1, a.1, t.1, t.2)

/-! ## Ethereum injector -/

/-- The execution payload of a beacon block, as far as this core reads
it: only `block_number`. -/
structure ExecutionPayload where
  block_number : Nat
deriving DecidableEq, Repr

/-- The body of a beacon block message. -/
structure BeaconBlockBody where
  execution_payload : ExecutionPayload
deriving DecidableEq, Repr

/-- The message of a beacon block. -/
structure BeaconBlockMessage where
  body : BeaconBlockBody
deriving DecidableEq, Repr

/-- A beacon block as returned by `beacon_block(slotIdentifier)`;
`block.message.body.execution_payload.block_number` is the execution
block corresponding to the requested slot. -/
structure BeaconBlock where
  message : BeaconBlockMessage
deriving DecidableEq, Repr

/-- The beacon API client: slot identifier string to beacon block. -/
def BeaconClient : Type := String → Except String BeaconBlock

/-- One entry of the storage-proof list in an `eth_getProof` response:
slot key (B256), claimed value (U256), Merkle-Patricia proof nodes. -/
structure StorageProofEntry where
  key : Nat
  value : Nat
  proof : List (List Nat)
deriving DecidableEq, Repr

/-- An `eth_getProof` account proof, as far as this core reads it:
the `storage_proof` list (at least one entry expected). -/
structure EthGetProofResponse where
  storage_proof : List StorageProofEntry
deriving DecidableEq, Repr

/-- The execution JSON-RPC client:
`get_proof(address, storageKeys, blockTag)`. -/
def EthClient : Type := String → List String → String → Except String EthGetProofResponse

/-- `StorageProof` (ethereum-types): key, value, proof nodes; membership
is asserted by a non-zero value. -/
structure StorageProof where
  key : Nat
  value : Nat
  proof : List (List Nat)
deriving DecidableEq, Repr

/-- Modelled from the spec: `serde_json::to_vec` of a `StorageProof`
(external code) — a deterministic byte serialization of key, value and
proof nodes. -/
def StorageProof.serialize (sp : StorageProof) : List Nat :=
  sp.key :: sp.value :: sp.proof.length :: sp.proof.flatten

/-- Modelled from the spec: `evm_ics26_commitment_path` (external
`ethereum-light-client` code) — the deterministic commitment-path-to-slot
hash seeded by the configured base slot, producing a U256 storage key. -/
def evm_ics26_commitment_path (path : List Nat) (slot : Nat) : Nat :=
  (path.foldl (fun acc b => acc * 257 + b + 1) slot) % 2 ^ 256

/-- `hex::encode(storage_key.to_be_bytes_vec())`: the 32-byte big-endian
storage key as 64 lowercase hex characters. -/
def storageKeyHex (key : Nat) : String :=
  let d := Nat.toDigits 16 key
  String.mk (List.replicate (64 - d.length) '0' ++ d)

/-- `format!("0x{block_number:x}")`: unpadded lowercase hex block tag. -/
def blockNumberHex (block_number : Nat) : String :=
  "0x" ++ String.mk (Nat.toDigits 16 block_number)

/-- `get_commitment_proof` (cosmos.rs lines 264-286): compute the storage
key from the path and base slot, call `get_proof` at the block, and take
the first storage-proof entry.  The source's `.first().unwrap()` panics
when the response has zero entries; the panic is modelled as the fatal
`malformedResponse` error. -/
def get_commitment_proof (eth_client : EthClient) (ibc_contrct_address : String)
    (block_number : Nat) (path : List Nat) (slot : Nat) :
    Except InjectError StorageProof :=
  let storage_key := evm_ics26_commitment_path path slot
  match eth_client ibc_contrct_address [storageKeyHex storage_key]
      (blockNumberHex block_number) with
  | .error e => .error (.rpc e)
  | .ok resp =>
    match resp.storage_proof with
    | [] => .error .malformedResponse
    | sp :: _ => .ok { key := sp.key, value := sp.value, proof := sp.proof }

/-- One recv message of `inject_ethereum_proofs` (lines 197-215): fetch
the commitment storage proof at the resolved block, fail `proofEmpty` on
a zero value, else serialize the proof into `proof_commitment` and set
the proof height to the given slot height. -/
def ethProcessRecv (eth_client : EthClient) (ibc_contrct_address : String)
    (proof_block_number : Nat) (ibc_contract_slot : Nat)
    (proof_slot_height : Height) (msg : MsgRecvPacket) :
    Except InjectError MsgRecvPacket :=
  match msg.packet with
  | none => .error .panicked
  | some packet =>
    match get_commitment_proof eth_client ibc_contrct_address proof_block_number
        (commitment_path packet) ibc_contract_slot with
    | .error e => .error e
    | .ok storage_proof =>
      if storage_proof.value = 0 then .error .proofEmpty
      else .ok { msg with proof_commitment := storage_proof.serialize,
                          proof_height := some proof_slot_height }

/-- One ack message of `inject_ethereum_proofs` (lines 219-237). -/
def ethProcessAck (eth_client : EthClient) (ibc_contrct_address : String)
    (proof_block_number : Nat) (ibc_contract_slot : Nat)
    (proof_slot_height : Height) (msg : MsgAcknowledgement) :
    Except InjectError MsgAcknowledgement :=
  match msg.packet with
  | none => .error .panicked
  | some packet =>
    match get_commitment_proof eth_client ibc_contrct_address proof_block_number
        (ack_commitment_path packet) ibc_contract_slot with
    | .error e => .error e
    | .ok storage_proof =>
      if storage_proof.value = 0 then .error .proofEmpty
      else .ok { msg with proof_acked := storage_proof.serialize,
                          proof_height := some proof_slot_height }

/-- One timeout message of `inject_ethereum_proofs` (lines 241-258):
fail `proofNonEmpty` when the receipt value is NOT zero. -/
def ethProcessTimeout (eth_client : EthClient) (ibc_contrct_address : String)
    (proof_block_number : Nat) (ibc_contract_slot : Nat)
    (proof_slot_height : Height) (msg : MsgTimeout) :
    Except InjectError MsgTimeout :=
  match msg.packet with
  | none => .error .panicked
  | some packet =>
    match get_commitment_proof eth_client ibc_contrct_address proof_block_number
        (receipt_commitment_path packet) ibc_contract_slot with
    | .error e => .error e
    | .ok storage_proof =>
      if storage_proof.value ≠ 0 then .error .proofNonEmpty
      else .ok { msg with proof_unreceived := storage_proof.serialize,
                          proof_height := some proof_slot_height }

/-- `inject_ethereum_proofs` (cosmos.rs lines 172-262): resolve the beacon
slot to an execution block number with one beacon-API call
(`format!("{proof_slot:?}")` is the slot's decimal string), build the slot
height `{revision_number: 0, revision_height: proof_slot}`, then process
the recv, ack and timeout batches in order against the resolved block. -/
def inject_ethereum_proofs (recv_msgs : List MsgRecvPacket)
    (ack_msgs : List MsgAcknowledgement) (timeout_msgs : List MsgTimeout)
    (eth_client : EthClient) (beacon_api_client : BeaconClient)
    (ibc_contrct_address : String) (ibc_contract_slot : Nat) (proof_slot : Nat) :
    List MsgRecvPacket × List MsgAcknowledgement × List MsgTimeout × Option InjectError :=
  match beacon_api_client (toString proof_slot) with
  | .error e => (recv_msgs, ack_msgs, timeout_msgs, some (.rpc e))
  | .ok current_beacon_block =>
    let proof_block_number :=
      current_beacon_block.message.body.execution_payload.block_number
    let proof_slot_height : Height := ⟨0, proof_slot⟩
    let r := processBatch
      (ethProcessRecv eth_client ibc_contrct_address proof_block_number
        ibc_contract_slot proof_slot_height) recv_msgs
    match r.2 with
    | some e => (r.1, ack_msgs, timeout_msgs, some e)
    | none =>
      let a := processBatch
        (ethProcessAck eth_client ibc_contrct_address proof_block_number
          ibc_contract_slot proof_slot_height) ack_msgs
      match a.2 with
      | some e => (r.1, a.1, timeout_msgs, some e)
      | none =>
        let t := processBatch
          (ethProcessTimeout eth_client ibc_contrct_address proof_block_number
            ibc_contract_slot proof_slot_height) timeout_msgs
        (r.1, a.1, t.1, t.2)

/-! ## Mock injector -/

/-- `b"mock".to_vec()` — the fixed sentinel proof bytes. -/
def mockProofBytes : List Nat := "mock".toList.map Char.toNat

/-- `inject_mock_proofs` (cosmos.rs lines 288-307): pure, total, no I/O;
sets every proof field to the sentinel bytes and every proof height to
`Height::default()`. -/
def inject_mock_proofs (recv_msgs : List MsgRecvPacket)
    (ack_msgs : List MsgAcknowledgement) (timeout_msgs : List MsgTimeout) :
    List MsgRecvPacket × List MsgAcknowledgement × List MsgTimeout :=
  (recv_msgs.map fun msg =>
     { msg with proof_commitment := mockProofBytes,
                proof_height := some Height.default },
   ack_msgs.map fun msg =>
     { msg with proof_acked := mockProofBytes,
                proof_height := some Height.default },
   timeout_msgs.map fun msg =>
     { msg with proof_unreceived := mockProofBytes,
                proof_height := some Height.default })

/-! ## Concrete instances

Concrete packets, messages and oracle clients used by the closed witness
and counterexample theorems below. -/

/-- A concrete packet. -/
def wPacket : Packet :=
  { sequence := 1, sourceClient := "client-a", destClient := "client-b",
    timeoutTimestamp := 10, payloads := [] }

/-- A second concrete packet, acknowledged on `client-b`. -/
def wPacketA : Packet :=
  { sequence := 2, sourceClient := "client-b", destClient := "client-a",
    timeoutTimestamp := 20, payloads := [] }

/-- A concrete target height. -/
def wHeight : Height := ⟨1, 5⟩

/-- A concrete recv-message skeleton for `wPacket`. -/
def wRecvMsg : MsgRecvPacket :=
  { packet := some wPacket, proof_height := some wHeight,
    proof_commitment := [], signer := "signer" }

/-- A concrete ack-message skeleton for `wPacketA`. -/
def wAckMsg : MsgAcknowledgement :=
  { packet := some wPacketA, acknowledgement := some ⟨[[1]]⟩,
    proof_height := some wHeight, proof_acked := [], signer := "signer" }

/-- A Tendermint client answering every query with an empty value
(non-membership everywhere). -/
def wTmClientEmpty : TmClient := fun _ _ => .ok ([], ⟨[7]⟩)

/-- A Tendermint client answering the ack path of `wPacketA` with an
empty value and every other path with a non-empty value. -/
def wTmClientAckEmpty : TmClient := fun paths _ =>
  if paths = [ibcModuleBytes, ack_commitment_path wPacketA] then .ok ([], ⟨[7]⟩)
  else .ok ([9], ⟨[7]⟩)

/-- An execution client whose `get_proof` response has zero
storage-proof entries. -/
def wEthClientNoEntries : EthClient := fun _ _ _ => .ok ⟨[]⟩

/-- An execution client that always fails at the transport level. -/
def wEthClientErr : EthClient := fun _ _ _ => .error "unavailable"

/-- A beacon client resolving every slot to execution block 500. -/
def wBeaconClient : BeaconClient := fun _ => .ok ⟨⟨⟨⟨500⟩⟩⟩⟩

/-- `wRecvMsg` fully populated with proof bytes `[7]` and `wHeight`. -/
def wRecvMsgFilled : MsgRecvPacket :=
  { wRecvMsg with proof_commitment := [7], proof_height := some wHeight }

/-- `wRecvMsg` after the mock injector: sentinel bytes and zero height. -/
def wRecvMsgMock : MsgRecvPacket :=
  { wRecvMsg with proof_commitment := mockProofBytes,
                  proof_height := some Height.default }

/-! ## Per-message relations

Relations between an input message and its state after an injector call,
used to state atomicity and frame properties. -/

/-- A recv message is untouched, or fully populated: proof bytes and
proof height written together. -/
def fullOrUntouchedRecv (th : Height) (m m' : MsgRecvPacket) : Prop :=
  m' = m ∨ ∃ bytes, m' = { m with proof_commitment := bytes, proof_height := some th }

/-- An ack message is untouched or fully populated. -/
def fullOrUntouchedAck (th : Height) (m m' : MsgAcknowledgement) : Prop :=
  m' = m ∨ ∃ bytes, m' = { m with proof_acked := bytes, proof_height := some th }

/-- A timeout message is untouched or fully populated. -/
def fullOrUntouchedTimeout (th : Height) (m m' : MsgTimeout) : Prop :=
  m' = m ∨ ∃ bytes, m' = { m with proof_unreceived := bytes, proof_height := some th }

/-- Frame for recv messages: packet and signer unchanged. -/
def frameRecv (m m' : MsgRecvPacket) : Prop :=
  m'.packet = m.packet ∧ m'.signer = m.signer

/-- Frame for ack messages: packet, signer and acknowledgement unchanged. -/
def frameAck (m m' : MsgAcknowledgement) : Prop :=
  m'.packet = m.packet ∧ m'.signer = m.signer ∧
    m'.acknowledgement = m.acknowledgement

/-- Frame for timeout messages: packet and signer unchanged. -/
def frameTimeout (m m' : MsgTimeout) : Prop :=
  m'.packet = m.packet ∧ m'.signer = m.signer

/-! ## Spec-side characterizations

Projections following the spec's words ("For each `SendPacket` event ...",
"For all `WriteAcknowledgement` events ..."), used to state the builder
claims as refinements: the packets of the `SendPacket` events in input
order, and the packet/acknowledgement pairs of the `WriteAcknowledgement`
events in input order. -/

/-- The packets of the `SendPacket` events of a list, in input order. -/
def sentPackets (events : List EurekaEventWithHeight) : List Packet :=
  events.filterMap fun e => match e.event with
    | .SendPacket p => some p
    | .WriteAcknowledgement _ _ => none

/-- The packet and acknowledgement list of each `WriteAcknowledgement`
event of a list, in input order. -/
def ackedPackets (events : List EurekaEventWithHeight) :
    List (Packet × List (List Nat)) :=
  events.filterMap fun e => match e.event with
    | .SendPacket _ => none
    | .WriteAcknowledgement p acks => some (p, acks)

end IbcEureka

namespace IbcEureka

/-- C1: `target_events_to_timeout_msgs` produces, in input order and
without deduplication, one `MsgTimeout` per `SendPacket` event satisfying
`now >= timeoutTimestamp` and `sourceClient == targetClientId`, carrying
the given target height and empty proof bytes; `WriteAcknowledgement`
events produce nothing. -/
theorem timeout_msgs_are_exactly_timed_out_sends
    (events : List EurekaEventWithHeight) (target_client_id : String)
    (target_height : Height) (signer_address : String) (now : Nat) :
    target_events_to_timeout_msgs events target_client_id target_height
        signer_address now =
      ((sentPackets events).filter fun p => timeoutCondition p target_client_id now).map
        fun p => { packet := some p, proof_height := some target_height,
                   proof_unreceived := [], signer := signer_address } := by
  induction events with
  | nil => rfl
  | cons e tl ih =>
    cases he : e.event with
    | SendPacket p =>
      by_cases hc : timeoutCondition p target_client_id now
      · simp [target_events_to_timeout_msgs, sentPackets, List.filterMap_cons,
          he, hc] at ih ⊢
        exact ih
      · simp [target_events_to_timeout_msgs, sentPackets, List.filterMap_cons,
          he, hc] at ih ⊢
        exact ih
    | WriteAcknowledgement p acks =>
      simp [target_events_to_timeout_msgs, sentPackets, List.filterMap_cons,
        he] at ih ⊢
      exact ih

/-- C2: the first component of `src_events_to_recv_and_ack_msgs` is, in
input order, one `MsgRecvPacket` per `SendPacket` event satisfying
`timeoutTimestamp > now` and `destClient == targetClientId`, carrying the
packet, the target height, empty `proof_commitment` and the signer. -/
theorem recv_msgs_are_exactly_live_sends
    (events : List EurekaEventWithHeight) (target_client_id : String)
    (target_height : Height) (signer_address : String) (now : Nat) :
    (src_events_to_recv_and_ack_msgs events target_client_id target_height
        signer_address now).1 =
      ((sentPackets events).filter fun p => recvCondition p target_client_id now).map
        fun p => { packet := some p, proof_height := some target_height,
                   proof_commitment := [], signer := signer_address } := by
  simp only [src_events_to_recv_and_ack_msgs, List.partition_eq_filter_filter]
  induction events with
  | nil => rfl
  | cons e tl ih =>
    cases he : e.event with
    | SendPacket p =>
      by_cases hc : recvCondition p target_client_id now
      · simp [sentPackets, srcEventFilter, isSendPacketEvent, List.filter_cons,
          List.filterMap_cons, he, hc] at ih ⊢
        exact ih
      · simp [sentPackets, srcEventFilter, isSendPacketEvent, List.filter_cons,
          List.filterMap_cons, he, hc] at ih ⊢
        exact ih
    | WriteAcknowledgement p acks =>
      by_cases hc : p.sourceClient == target_client_id
      · simp [sentPackets, srcEventFilter, isSendPacketEvent, List.filter_cons,
          List.filterMap_cons, he, hc] at ih ⊢
        exact ih
      · simp [sentPackets, srcEventFilter, isSendPacketEvent, List.filter_cons,
          List.filterMap_cons, he, hc] at ih ⊢
        exact ih

/-- C3: the second component of `src_events_to_recv_and_ack_msgs` is, in
input order, one `MsgAcknowledgement` per `WriteAcknowledgement` event
whose packet's `sourceClient` equals the target client id, carrying the
packet and the same per-app acknowledgement byte sequences;
non-matching `WriteAcknowledgement` events produce nothing. -/
theorem ack_msgs_are_exactly_matching_write_acks
    (events : List EurekaEventWithHeight) (target_client_id : String)
    (target_height : Height) (signer_address : String) (now : Nat) :
    (src_events_to_recv_and_ack_msgs events target_client_id target_height
        signer_address now).2 =
      ((ackedPackets events).filter fun pa => pa.1.sourceClient == target_client_id).map
        fun pa => { packet := some pa.1, acknowledgement := some ⟨pa.2⟩,
                    proof_height := some target_height,
                    proof_acked := [], signer := signer_address } := by
  simp only [src_events_to_recv_and_ack_msgs, List.partition_eq_filter_filter]
  induction events with
  | nil => rfl
  | cons e tl ih =>
    cases he : e.event with
    | SendPacket p =>
      by_cases hc : recvCondition p target_client_id now
      · simp [ackedPackets, srcEventFilter, isSendPacketEvent, List.filter_cons,
          List.filterMap_cons, he, hc] at ih ⊢
        exact ih
      · simp [ackedPackets, srcEventFilter, isSendPacketEvent, List.filter_cons,
          List.filterMap_cons, he, hc] at ih ⊢
        exact ih
    | WriteAcknowledgement p acks =>
      by_cases hc : p.sourceClient == target_client_id
      · simp [ackedPackets, srcEventFilter, isSendPacketEvent, List.filter_cons,
          List.filterMap_cons, he, hc] at ih ⊢
        exact ih
      · simp [ackedPackets, srcEventFilter, isSendPacketEvent, List.filter_cons,
          List.filterMap_cons, he, hc] at ih ⊢
        exact ih

/-- C8: the timeout condition and the recv condition cannot both hold for
the same packet, target client id and `now` (the timestamp comparisons
`now >= t` and `t > now` are contradictory). -/
theorem timeout_and_recv_conditions_mutually_exclusive
    (p : Packet) (target_client_id : String) (now : Nat) :
    (timeoutCondition p target_client_id now &&
      recvCondition p target_client_id now) = false := by
  by_cases h1 : now ≥ p.timeoutTimestamp
  · have h2 : ¬ p.timeoutTimestamp > now := by omega
    simp [timeoutCondition, recvCondition, h1, h2]
  · simp [timeoutCondition, recvCondition, h1]

/-! ## Batch-processing lemmas -/

/-- A batch run reports no error iff every message of the batch is
processed successfully. -/
theorem processBatch_snd_eq_none_iff {α : Type} (f : α → Except InjectError α)
    (l : List α) :
    (processBatch f l).2 = none ↔ ∀ m ∈ l, ∃ m', f m = .ok m' := by
  induction l with
  | nil => simp [processBatch]
  | cons m ms ih =>
    cases hf : f m with
    | ok m' => simp [processBatch, hf, ih]
    | error e => simp [processBatch, hf]

/-- On a batch run without error, input and output messages are pairwise
related by successful processing. -/
theorem processBatch_none_forall₂ {α : Type} (f : α → Except InjectError α)
    (l : List α) :
    (processBatch f l).2 = none →
      List.Forall₂ (fun m m' => f m = .ok m') l (processBatch f l).1 := by
  induction l with
  | nil => intro _; simp [processBatch]
  | cons m ms ih =>
    intro h
    cases hf : f m with
    | ok m' =>
      simp only [processBatch, hf] at h ⊢
      exact List.Forall₂.cons hf (ih h)
    | error e => simp [processBatch, hf] at h

/-- Whatever the outcome, input and output messages of a batch run are
pairwise related by any reflexive relation that successful processing
establishes. -/
theorem processBatch_forall₂ {α : Type} (R : α → α → Prop)
    (f : α → Except InjectError α) (l : List α)
    (hok : ∀ m m', f m = .ok m' → R m m') (hrefl : ∀ m, R m m) :
    List.Forall₂ R l (processBatch f l).1 := by
  induction l with
  | nil => simp [processBatch]
  | cons m ms ih =>
    cases hf : f m with
    | ok m' =>
      simp only [processBatch, hf]
      exact List.Forall₂.cons (hok m m' hf) ih
    | error e =>
      simp only [processBatch, hf]
      exact List.Forall₂.cons (hrefl m) (List.forall₂_same.mpr fun x _ => hrefl x)

/-- Mapping over a list is pairwise related to the original. -/
theorem forall₂_map_self {α : Type} (R : α → α → Prop) (f : α → α) (l : List α)
    (h : ∀ m, R m (f m)) : List.Forall₂ R l (l.map f) := by
  induction l with
  | nil => simp
  | cons m ms ih =>
    rw [List.map_cons]
    exact List.Forall₂.cons (h m) ih

/-- The Tendermint injector succeeds iff all three batch runs do. -/
theorem inject_tendermint_ok_iff (client : TmClient) (th : Height)
    (rs : List MsgRecvPacket) (ams : List MsgAcknowledgement)
    (ts : List MsgTimeout) :
    (inject_tendermint_proofs rs ams ts client th).2.2.2 = none ↔
      ((processBatch (tmProcessRecv client th) rs).2 = none ∧
       (processBatch (tmProcessAck client th) ams).2 = none ∧
       (processBatch (tmProcessTimeout client th) ts).2 = none) := by
  unfold inject_tendermint_proofs
  cases hr : (processBatch (tmProcessRecv client th) rs).2 with
  | some e => simp [hr]
  | none =>
    cases ha : (processBatch (tmProcessAck client th) ams).2 with
    | some e => simp [hr, ha]
    | none =>
      cases ht : (processBatch (tmProcessTimeout client th) ts).2 with
      | some e => simp [hr, ha, ht]
      | none => simp [hr, ha, ht]

/-- Successful Tendermint recv processing inverted: the packet was
present, the commitment-path query returned a non-empty value, and the
message was updated with the encoded proof and the target height. -/
theorem tmProcessRecv_ok_inv (client : TmClient) (th : Height)
    (msg msg' : MsgRecvPacket)
    (h : tmProcessRecv client th msg = .ok msg') :
    ∃ p value pf, msg.packet = some p ∧
      client [ibcModuleBytes, commitment_path p] th.revision_height = .ok (value, pf) ∧
      value ≠ [] ∧
      msg' = { msg with proof_commitment := pf.encode_vec,
                        proof_height := some th } := by
  cases hp : msg.packet with
  | none => simp [tmProcessRecv, hp] at h
  | some p =>
    cases hc : client [ibcModuleBytes, commitment_path p] th.revision_height with
    | error e => simp [tmProcessRecv, hp, hc] at h
    | ok vp =>
      by_cases hv : vp.1.isEmpty
      · simp [tmProcessRecv, hp, hc, hv] at h
      · simp only [tmProcessRecv, hp, hc, hv, Bool.false_eq_true, if_false,
          Except.ok.injEq] at h
        refine ⟨p, vp.1, vp.2, rfl, ?_, ?_, h.symm⟩
        · rw [hc]
        · intro hnil
          simp [hnil] at hv

/-- Successful Tendermint ack processing inverted. -/
theorem tmProcessAck_ok_inv (client : TmClient) (th : Height)
    (msg msg' : MsgAcknowledgement)
    (h : tmProcessAck client th msg = .ok msg') :
    ∃ p value pf, msg.packet = some p ∧
      client [ibcModuleBytes, ack_commitment_path p] th.revision_height = .ok (value, pf) ∧
      value ≠ [] ∧
      msg' = { msg with proof_acked := pf.encode_vec,
                        proof_height := some th } := by
  cases hp : msg.packet with
  | none => simp [tmProcessAck, hp] at h
  | some p =>
    cases hc : client [ibcModuleBytes, ack_commitment_path p] th.revision_height with
    | error e => simp [tmProcessAck, hp, hc] at h
    | ok vp =>
      by_cases hv : vp.1.isEmpty
      · simp [tmProcessAck, hp, hc, hv] at h
      · simp only [tmProcessAck, hp, hc, hv, Bool.false_eq_true, if_false,
          Except.ok.injEq] at h
        refine ⟨p, vp.1, vp.2, rfl, ?_, ?_, h.symm⟩
        · rw [hc]
        · intro hnil
          simp [hnil] at hv

/-- Successful Tendermint timeout processing inverted: the receipt-path
query returned an EMPTY value. -/
theorem tmProcessTimeout_ok_inv (client : TmClient) (th : Height)
    (msg msg' : MsgTimeout)
    (h : tmProcessTimeout client th msg = .ok msg') :
    ∃ p pf, msg.packet = some p ∧
      client [ibcModuleBytes, receipt_commitment_path p] th.revision_height = .ok ([], pf) ∧
      msg' = { msg with proof_unreceived := pf.encode_vec,
                        proof_height := some th } := by
  cases hp : msg.packet with
  | none => simp [tmProcessTimeout, hp] at h
  | some p =>
    cases hc : client [ibcModuleBytes, receipt_commitment_path p] th.revision_height with
    | error e => simp [tmProcessTimeout, hp, hc] at h
    | ok vp =>
      obtain ⟨value, pf⟩ := vp
      by_cases hv : value.isEmpty
      · have hnil : value = [] := List.isEmpty_iff.mp hv
        subst hnil
        simp only [tmProcessTimeout, hp, hc, List.isEmpty_nil, Bool.not_true,
          Bool.false_eq_true, if_false, Except.ok.injEq] at h
        exact ⟨p, pf, rfl, hc, h.symm⟩
      · simp [tmProcessTimeout, hp, hc, hv] at h

/-- Successful Ethereum recv processing inverted: the packet was present,
the commitment-path storage proof was fetched at the given block with a
non-zero value, and the message was updated with the serialized proof
and the slot height. -/
theorem ethProcessRecv_ok_inv (eth_client : EthClient) (addr : String)
    (bn slot : Nat) (hgt : Height) (msg msg' : MsgRecvPacket)
    (h : ethProcessRecv eth_client addr bn slot hgt msg = .ok msg') :
    ∃ p sp, msg.packet = some p ∧
      get_commitment_proof eth_client addr bn (commitment_path p) slot = .ok sp ∧
      sp.value ≠ 0 ∧
      msg' = { msg with proof_commitment := sp.serialize,
                        proof_height := some hgt } := by
  cases hp : msg.packet with
  | none => simp [ethProcessRecv, hp] at h
  | some p =>
    cases hg : get_commitment_proof eth_client addr bn (commitment_path p) slot with
    | error e => simp [ethProcessRecv, hp, hg] at h
    | ok sp =>
      by_cases hv : sp.value = 0
      · simp [ethProcessRecv, hp, hg, hv] at h
      · simp only [ethProcessRecv, hp, hg, hv, if_false, Except.ok.injEq] at h
        exact ⟨p, sp, rfl, hg, hv, h.symm⟩

/-- Successful Ethereum ack processing inverted. -/
theorem ethProcessAck_ok_inv (eth_client : EthClient) (addr : String)
    (bn slot : Nat) (hgt : Height) (msg msg' : MsgAcknowledgement)
    (h : ethProcessAck eth_client addr bn slot hgt msg = .ok msg') :
    ∃ p sp, msg.packet = some p ∧
      get_commitment_proof eth_client addr bn (ack_commitment_path p) slot = .ok sp ∧
      sp.value ≠ 0 ∧
      msg' = { msg with proof_acked := sp.serialize,
                        proof_height := some hgt } := by
  cases hp : msg.packet with
  | none => simp [ethProcessAck, hp] at h
  | some p =>
    cases hg : get_commitment_proof eth_client addr bn (ack_commitment_path p) slot with
    | error e => simp [ethProcessAck, hp, hg] at h
    | ok sp =>
      by_cases hv : sp.value = 0
      · simp [ethProcessAck, hp, hg, hv] at h
      · simp only [ethProcessAck, hp, hg, hv, if_false, Except.ok.injEq] at h
        exact ⟨p, sp, rfl, hg, hv, h.symm⟩

/-- Successful Ethereum timeout processing inverted: the receipt-path
storage proof has a ZERO value. -/
theorem ethProcessTimeout_ok_inv (eth_client : EthClient) (addr : String)
    (bn slot : Nat) (hgt : Height) (msg msg' : MsgTimeout)
    (h : ethProcessTimeout eth_client addr bn slot hgt msg = .ok msg') :
    ∃ p sp, msg.packet = some p ∧
      get_commitment_proof eth_client addr bn (receipt_commitment_path p) slot = .ok sp ∧
      sp.value = 0 ∧
      msg' = { msg with proof_unreceived := sp.serialize,
                        proof_height := some hgt } := by
  cases hp : msg.packet with
  | none => simp [ethProcessTimeout, hp] at h
  | some p =>
    cases hg : get_commitment_proof eth_client addr bn (receipt_commitment_path p) slot with
    | error e => simp [ethProcessTimeout, hp, hg] at h
    | ok sp =>
      by_cases hv : sp.value = 0
      · simp only [ethProcessTimeout, hp, hg, hv, ne_eq, not_true_eq_false,
          if_false, Except.ok.injEq] at h
        exact ⟨p, sp, rfl, hg, hv, h.symm⟩
      · simp [ethProcessTimeout, hp, hg, hv] at h

/-- C4: in the Tendermint injector, a recv or ack message whose path
query returns an empty value fails with `proofEmpty`; a timeout message
whose query returns a non-empty value fails with `proofNonEmpty`;
otherwise the message's proof field is set to the encoded proof bytes and
its proof height to the target height, overwriting the provisional one;
and the whole call succeeds iff every message of all three batches
processes successfully (so any failing message fails the whole call). -/
theorem tendermint_proof_value_contract :
    (∀ (client : TmClient) (th : Height) (msg : MsgRecvPacket) (p : Packet)
       (value : List Nat) (pf : TmProof),
       msg.packet = some p →
       client [ibcModuleBytes, commitment_path p] th.revision_height = .ok (value, pf) →
       (value = [] → tmProcessRecv client th msg = .error .proofEmpty) ∧
       (value ≠ [] → tmProcessRecv client th msg =
          .ok { msg with proof_commitment := pf.encode_vec,
                         proof_height := some th })) ∧
    (∀ (client : TmClient) (th : Height) (msg : MsgAcknowledgement) (p : Packet)
       (value : List Nat) (pf : TmProof),
       msg.packet = some p →
       client [ibcModuleBytes, ack_commitment_path p] th.revision_height = .ok (value, pf) →
       (value = [] → tmProcessAck client th msg = .error .proofEmpty) ∧
       (value ≠ [] → tmProcessAck client th msg =
          .ok { msg with proof_acked := pf.encode_vec,
                         proof_height := some th })) ∧
    (∀ (client : TmClient) (th : Height) (msg : MsgTimeout) (p : Packet)
       (value : List Nat) (pf : TmProof),
       msg.packet = some p →
       client [ibcModuleBytes, receipt_commitment_path p] th.revision_height = .ok (value, pf) →
       (value ≠ [] → tmProcessTimeout client th msg = .error .proofNonEmpty) ∧
       (value = [] → tmProcessTimeout client th msg =
          .ok { msg with proof_unreceived := pf.encode_vec,
                         proof_height := some th })) ∧
    (∀ (client : TmClient) (th : Height) (rs : List MsgRecvPacket)
       (ams : List MsgAcknowledgement) (ts : List MsgTimeout),
       (inject_tendermint_proofs rs ams ts client th).2.2.2 = none ↔
         ((∀ m ∈ rs, ∃ m', tmProcessRecv client th m = .ok m') ∧
          (∀ m ∈ ams, ∃ m', tmProcessAck client th m = .ok m') ∧
          (∀ m ∈ ts, ∃ m', tmProcessTimeout client th m = .ok m'))) := by
  refine ⟨?_, ?_, ?_, ?_⟩
  · intro client th msg p value pf hp hc
    constructor
    · intro hv
      subst hv
      simp [tmProcessRecv, hp, hc]
    · intro hv
      simp [tmProcessRecv, hp, hc, List.isEmpty_iff, hv]
  · intro client th msg p value pf hp hc
    constructor
    · intro hv
      subst hv
      simp [tmProcessAck, hp, hc]
    · intro hv
      simp [tmProcessAck, hp, hc, List.isEmpty_iff, hv]
  · intro client th msg p value pf hp hc
    constructor
    · intro hv
      simp [tmProcessTimeout, hp, hc, List.isEmpty_iff, hv]
    · intro hv
      subst hv
      simp [tmProcessTimeout, hp, hc]
  · intro client th rs ams ts
    rw [inject_tendermint_ok_iff]
    simp [processBatch_snd_eq_none_iff]

/-- C4 witness: a recv message whose commitment-path query returns an
empty value is rejected with `proofEmpty`. -/
theorem tendermint_proof_value_contract_witness :
    tmProcessRecv wTmClientEmpty wHeight wRecvMsg = .error .proofEmpty :=
  (tendermint_proof_value_contract.1 wTmClientEmpty wHeight wRecvMsg wPacket
    [] ⟨[7]⟩ rfl rfl).1 rfl

/-- C5: when the Ethereum injector succeeds, every message of all three
batches carries a storage proof fetched by `get_commitment_proof` at the
single execution block number resolved from the beacon slot, and its
proof height is `{revision_number := 0, revision_height := proof_slot}`
— the beacon slot, not the resolved execution block number. -/
theorem ethereum_proofs_single_block_and_slot_height
    (eth : EthClient) (beacon : BeaconClient) (addr : String)
    (slot proof_slot : Nat) (rs : List MsgRecvPacket)
    (ams : List MsgAcknowledgement) (ts : List MsgTimeout)
    (r' : List MsgRecvPacket) (a' : List MsgAcknowledgement)
    (t' : List MsgTimeout) (bb : BeaconBlock)
    (hb : beacon (toString proof_slot) = .ok bb)
    (hrun : inject_ethereum_proofs rs ams ts eth beacon addr slot proof_slot =
      (r', a', t', none)) :
    List.Forall₂ (fun m m' => ∃ p sp, m.packet = some p ∧
        get_commitment_proof eth addr bb.message.body.execution_payload.block_number
          (commitment_path p) slot = .ok sp ∧ sp.value ≠ 0 ∧
        m' = { m with proof_commitment := sp.serialize,
                      proof_height := some ⟨0, proof_slot⟩ }) rs r' ∧
    List.Forall₂ (fun m m' => ∃ p sp, m.packet = some p ∧
        get_commitment_proof eth addr bb.message.body.execution_payload.block_number
          (ack_commitment_path p) slot = .ok sp ∧ sp.value ≠ 0 ∧
        m' = { m with proof_acked := sp.serialize,
                      proof_height := some ⟨0, proof_slot⟩ }) ams a' ∧
    List.Forall₂ (fun m m' => ∃ p sp, m.packet = some p ∧
        get_commitment_proof eth addr bb.message.body.execution_payload.block_number
          (receipt_commitment_path p) slot = .ok sp ∧ sp.value = 0 ∧
        m' = { m with proof_unreceived := sp.serialize,
                      proof_height := some ⟨0, proof_slot⟩ }) ts t' := by
  simp only [inject_ethereum_proofs, hb] at hrun
  cases hr : (processBatch (ethProcessRecv eth addr
      bb.message.body.execution_payload.block_number slot ⟨0, proof_slot⟩) rs).2 with
  | some e =>
    rw [hr] at hrun
    simp at hrun
  | none =>
    rw [hr] at hrun
    cases ha : (processBatch (ethProcessAck eth addr
        bb.message.body.execution_payload.block_number slot ⟨0, proof_slot⟩) ams).2 with
    | some e =>
      rw [ha] at hrun
      simp at hrun
    | none =>
      rw [ha] at hrun
      cases ht : (processBatch (ethProcessTimeout eth addr
          bb.message.body.execution_payload.block_number slot ⟨0, proof_slot⟩) ts).2 with
      | some e =>
        rw [ht] at hrun
        simp at hrun
      | none =>
        rw [ht] at hrun
        simp only [Prod.mk.injEq] at hrun
        obtain ⟨h1, h2, h3, -⟩ := hrun
        subst h1
        subst h2
        subst h3
        refine ⟨?_, ?_, ?_⟩
        · exact (processBatch_none_forall₂ _ _ hr).imp
            fun m m' hmm => ethProcessRecv_ok_inv _ _ _ _ _ _ _ hmm
        · exact (processBatch_none_forall₂ _ _ ha).imp
            fun m m' hmm => ethProcessAck_ok_inv _ _ _ _ _ _ _ hmm
        · exact (processBatch_none_forall₂ _ _ ht).imp
            fun m m' hmm => ethProcessTimeout_ok_inv _ _ _ _ _ _ _ hmm

/-- C5 witness: on empty batches with a beacon client resolving slot 1000
to block 500, the call succeeds and the characterization holds. -/
theorem ethereum_proofs_single_block_and_slot_height_witness :
    List.Forall₂ (fun (m m' : MsgRecvPacket) => ∃ p sp, m.packet = some p ∧
        get_commitment_proof wEthClientErr "addr" 500
          (commitment_path p) 0 = .ok sp ∧ sp.value ≠ 0 ∧
        m' = { m with proof_commitment := sp.serialize,
                      proof_height := some ⟨0, 1000⟩ }) [] [] ∧
    List.Forall₂ (fun (m m' : MsgAcknowledgement) => ∃ p sp, m.packet = some p ∧
        get_commitment_proof wEthClientErr "addr" 500
          (ack_commitment_path p) 0 = .ok sp ∧ sp.value ≠ 0 ∧
        m' = { m with proof_acked := sp.serialize,
                      proof_height := some ⟨0, 1000⟩ }) [] [] ∧
    List.Forall₂ (fun (m m' : MsgTimeout) => ∃ p sp, m.packet = some p ∧
        get_commitment_proof wEthClientErr "addr" 500
          (receipt_commitment_path p) 0 = .ok sp ∧ sp.value = 0 ∧
        m' = { m with proof_unreceived := sp.serialize,
                      proof_height := some ⟨0, 1000⟩ }) [] [] :=
  ethereum_proofs_single_block_and_slot_height wEthClientErr wBeaconClient
    "addr" 0 1000 [] [] [] [] [] [] ⟨⟨⟨⟨500⟩⟩⟩⟩ rfl rfl

/-! ## Output components of the injectors -/

/-- The recv component of the Tendermint injector is always the processed
recv batch; the ack and timeout components are either untouched (an
earlier batch failed) or their processed batch. -/
theorem inject_tendermint_components (client : TmClient) (th : Height)
    (rs : List MsgRecvPacket) (ams : List MsgAcknowledgement)
    (ts : List MsgTimeout) :
    (inject_tendermint_proofs rs ams ts client th).1 =
      (processBatch (tmProcessRecv client th) rs).1 ∧
    ((inject_tendermint_proofs rs ams ts client th).2.1 = ams ∨
     (inject_tendermint_proofs rs ams ts client th).2.1 =
       (processBatch (tmProcessAck client th) ams).1) ∧
    ((inject_tendermint_proofs rs ams ts client th).2.2.1 = ts ∨
     (inject_tendermint_proofs rs ams ts client th).2.2.1 =
       (processBatch (tmProcessTimeout client th) ts).1) := by
  unfold inject_tendermint_proofs
  cases hr : (processBatch (tmProcessRecv client th) rs).2 with
  | some e => simp [hr]
  | none =>
    cases ha : (processBatch (tmProcessAck client th) ams).2 with
    | some e => simp [hr, ha]
    | none =>
      cases ht : (processBatch (tmProcessTimeout client th) ts).2 with
      | some e => simp [hr, ha, ht]
      | none => simp [hr, ha, ht]

/-- Each component of the Ethereum injector's output is either untouched
or the processed batch at some resolved block number. -/
theorem inject_ethereum_components (eth : EthClient) (beacon : BeaconClient)
    (addr : String) (slot pslot : Nat) (rs : List MsgRecvPacket)
    (ams : List MsgAcknowledgement) (ts : List MsgTimeout) :
    ((inject_ethereum_proofs rs ams ts eth beacon addr slot pslot).1 = rs ∨
     ∃ bn, (inject_ethereum_proofs rs ams ts eth beacon addr slot pslot).1 =
       (processBatch (ethProcessRecv eth addr bn slot ⟨0, pslot⟩) rs).1) ∧
    ((inject_ethereum_proofs rs ams ts eth beacon addr slot pslot).2.1 = ams ∨
     ∃ bn, (inject_ethereum_proofs rs ams ts eth beacon addr slot pslot).2.1 =
       (processBatch (ethProcessAck eth addr bn slot ⟨0, pslot⟩) ams).1) ∧
    ((inject_ethereum_proofs rs ams ts eth beacon addr slot pslot).2.2.1 = ts ∨
     ∃ bn, (inject_ethereum_proofs rs ams ts eth beacon addr slot pslot).2.2.1 =
       (processBatch (ethProcessTimeout eth addr bn slot ⟨0, pslot⟩) ts).1) := by
  unfold inject_ethereum_proofs
  cases hb : beacon (toString pslot) with
  | error e => simp [hb]
  | ok bb =>
    cases hr : (processBatch (ethProcessRecv eth addr
        bb.message.body.execution_payload.block_number slot ⟨0, pslot⟩) rs).2 with
    | some e =>
      simp only [hb, hr]
      exact ⟨Or.inr ⟨_, rfl⟩, Or.inl (by trivial), Or.inl (by trivial)⟩
    | none =>
      cases ha : (processBatch (ethProcessAck eth addr
          bb.message.body.execution_payload.block_number slot ⟨0, pslot⟩) ams).2 with
      | some e =>
        simp only [hb, hr, ha]
        exact ⟨Or.inr ⟨_, rfl⟩, Or.inr ⟨_, rfl⟩, Or.inl (by trivial)⟩
      | none =>
        cases ht : (processBatch (ethProcessTimeout eth addr
            bb.message.body.execution_payload.block_number slot ⟨0, pslot⟩) ts).2 with
        | some e =>
          simp only [hb, hr, ha, ht]
          exact ⟨Or.inr ⟨_, rfl⟩, Or.inr ⟨_, rfl⟩, Or.inr ⟨_, rfl⟩⟩
        | none =>
          simp only [hb, hr, ha, ht]
          exact ⟨Or.inr ⟨_, rfl⟩, Or.inr ⟨_, rfl⟩, Or.inr ⟨_, rfl⟩⟩

/-! ## Per-batch atomicity lemmas -/

/-- Processed Tendermint recv batches are full-or-untouched pairwise. -/
theorem tm_recv_full_or_untouched (client : TmClient) (th : Height)
    (rs : List MsgRecvPacket) :
    List.Forall₂ (fullOrUntouchedRecv th) rs
      (processBatch (tmProcessRecv client th) rs).1 :=
  processBatch_forall₂ _ _ _
    (fun m m' hm => by
      obtain ⟨p, v, pf, hp, hc, hv, rfl⟩ := tmProcessRecv_ok_inv _ _ _ _ hm
      exact Or.inr ⟨pf.encode_vec, rfl⟩)
    (fun m => Or.inl rfl)

/-- Processed Tendermint ack batches are full-or-untouched pairwise. -/
theorem tm_ack_full_or_untouched (client : TmClient) (th : Height)
    (ams : List MsgAcknowledgement) :
    List.Forall₂ (fullOrUntouchedAck th) ams
      (processBatch (tmProcessAck client th) ams).1 :=
  processBatch_forall₂ _ _ _
    (fun m m' hm => by
      obtain ⟨p, v, pf, hp, hc, hv, rfl⟩ := tmProcessAck_ok_inv _ _ _ _ hm
      exact Or.inr ⟨pf.encode_vec, rfl⟩)
    (fun m => Or.inl rfl)

/-- Processed Tendermint timeout batches are full-or-untouched pairwise. -/
theorem tm_timeout_full_or_untouched (client : TmClient) (th : Height)
    (ts : List MsgTimeout) :
    List.Forall₂ (fullOrUntouchedTimeout th) ts
      (processBatch (tmProcessTimeout client th) ts).1 :=
  processBatch_forall₂ _ _ _
    (fun m m' hm => by
      obtain ⟨p, pf, hp, hc, rfl⟩ := tmProcessTimeout_ok_inv _ _ _ _ hm
      exact Or.inr ⟨pf.encode_vec, rfl⟩)
    (fun m => Or.inl rfl)

/-- Processed Ethereum recv batches are full-or-untouched pairwise. -/
theorem eth_recv_full_or_untouched (eth : EthClient) (addr : String)
    (bn slot : Nat) (hgt : Height) (rs : List MsgRecvPacket) :
    List.Forall₂ (fullOrUntouchedRecv hgt) rs
      (processBatch (ethProcessRecv eth addr bn slot hgt) rs).1 :=
  processBatch_forall₂ _ _ _
    (fun m m' hm => by
      obtain ⟨p, sp, hp, hg, hv, rfl⟩ := ethProcessRecv_ok_inv _ _ _ _ _ _ _ hm
      exact Or.inr ⟨sp.serialize, rfl⟩)
    (fun m => Or.inl rfl)

/-- Processed Ethereum ack batches are full-or-untouched pairwise. -/
theorem eth_ack_full_or_untouched (eth : EthClient) (addr : String)
    (bn slot : Nat) (hgt : Height) (ams : List MsgAcknowledgement) :
    List.Forall₂ (fullOrUntouchedAck hgt) ams
      (processBatch (ethProcessAck eth addr bn slot hgt) ams).1 :=
  processBatch_forall₂ _ _ _
    (fun m m' hm => by
      obtain ⟨p, sp, hp, hg, hv, rfl⟩ := ethProcessAck_ok_inv _ _ _ _ _ _ _ hm
      exact Or.inr ⟨sp.serialize, rfl⟩)
    (fun m => Or.inl rfl)

/-- Processed Ethereum timeout batches are full-or-untouched pairwise. -/
theorem eth_timeout_full_or_untouched (eth : EthClient) (addr : String)
    (bn slot : Nat) (hgt : Height) (ts : List MsgTimeout) :
    List.Forall₂ (fullOrUntouchedTimeout hgt) ts
      (processBatch (ethProcessTimeout eth addr bn slot hgt) ts).1 :=
  processBatch_forall₂ _ _ _
    (fun m m' hm => by
      obtain ⟨p, sp, hp, hg, hv, rfl⟩ := ethProcessTimeout_ok_inv _ _ _ _ _ _ _ hm
      exact Or.inr ⟨sp.serialize, rfl⟩)
    (fun m => Or.inl rfl)

/-- Untouched lists are full-or-untouched pairwise (recv). -/
theorem refl_full_or_untouched_recv (th : Height) (l : List MsgRecvPacket) :
    List.Forall₂ (fullOrUntouchedRecv th) l l :=
  List.forall₂_same.mpr fun _ _ => Or.inl rfl

/-- Untouched lists are full-or-untouched pairwise (ack). -/
theorem refl_full_or_untouched_ack (th : Height) (l : List MsgAcknowledgement) :
    List.Forall₂ (fullOrUntouchedAck th) l l :=
  List.forall₂_same.mpr fun _ _ => Or.inl rfl

/-- Untouched lists are full-or-untouched pairwise (timeout). -/
theorem refl_full_or_untouched_timeout (th : Height) (l : List MsgTimeout) :
    List.Forall₂ (fullOrUntouchedTimeout th) l l :=
  List.forall₂_same.mpr fun _ _ => Or.inl rfl

/-- Full-or-untouched implies the recv frame. -/
theorem fullOrUntouchedRecv_frame (th : Height) (m m' : MsgRecvPacket)
    (h : fullOrUntouchedRecv th m m') : frameRecv m m' := by
  rcases h with rfl | ⟨bytes, rfl⟩ <;> exact ⟨rfl, rfl⟩

/-- Full-or-untouched implies the ack frame. -/
theorem fullOrUntouchedAck_frame (th : Height) (m m' : MsgAcknowledgement)
    (h : fullOrUntouchedAck th m m') : frameAck m m' := by
  rcases h with rfl | ⟨bytes, rfl⟩ <;> exact ⟨rfl, rfl, rfl⟩

/-- Full-or-untouched implies the timeout frame. -/
theorem fullOrUntouchedTimeout_frame (th : Height) (m m' : MsgTimeout)
    (h : fullOrUntouchedTimeout th m m') : frameTimeout m m' := by
  rcases h with rfl | ⟨bytes, rfl⟩ <;> exact ⟨rfl, rfl⟩

/-- C6 counterexample: a Tendermint injector call that fails on the ack
batch (ack path value empty) returns an error, yet the recv batch —
processed before the failure — is observable fully populated, refuting
"no message in any of the three batches is observable as populated". -/
theorem inject_error_leaves_populated_recv :
    (inject_tendermint_proofs [wRecvMsg] [wAckMsg] [] wTmClientAckEmpty wHeight).2.2.2 =
      some .proofEmpty ∧
    (inject_tendermint_proofs [wRecvMsg] [wAckMsg] [] wTmClientAckEmpty wHeight).1 =
      [wRecvMsgFilled] ∧
    wRecvMsgFilled ≠ wRecvMsg := by
  refine ⟨by decide, by decide, by decide⟩

/-- C6 amended: a failing injector call is not rolled back: every message
ends either untouched or fully populated (proof bytes and final proof
height written together, never one without the other); batches after the
failing one are untouched, while batches processed before the failure
stay populated and visible, so the caller must itself discard the whole
batch set and retry. -/
theorem inject_failure_full_or_untouched :
    (∀ (client : TmClient) (th : Height) (rs : List MsgRecvPacket)
       (ams : List MsgAcknowledgement) (ts : List MsgTimeout),
       List.Forall₂ (fullOrUntouchedRecv th) rs
         (inject_tendermint_proofs rs ams ts client th).1 ∧
       List.Forall₂ (fullOrUntouchedAck th) ams
         (inject_tendermint_proofs rs ams ts client th).2.1 ∧
       List.Forall₂ (fullOrUntouchedTimeout th) ts
         (inject_tendermint_proofs rs ams ts client th).2.2.1) ∧
    (∀ (eth : EthClient) (beacon : BeaconClient) (addr : String)
       (slot pslot : Nat) (rs : List MsgRecvPacket)
       (ams : List MsgAcknowledgement) (ts : List MsgTimeout),
       List.Forall₂ (fullOrUntouchedRecv ⟨0, pslot⟩) rs
         (inject_ethereum_proofs rs ams ts eth beacon addr slot pslot).1 ∧
       List.Forall₂ (fullOrUntouchedAck ⟨0, pslot⟩) ams
         (inject_ethereum_proofs rs ams ts eth beacon addr slot pslot).2.1 ∧
       List.Forall₂ (fullOrUntouchedTimeout ⟨0, pslot⟩) ts
         (inject_ethereum_proofs rs ams ts eth beacon addr slot pslot).2.2.1) := by
  constructor
  · intro client th rs ams ts
    obtain ⟨h1, h2, h3⟩ := inject_tendermint_components client th rs ams ts
    refine ⟨?_, ?_, ?_⟩
    · rw [h1]
      exact tm_recv_full_or_untouched client th rs
    · rcases h2 with h2 | h2
      · rw [h2]
        exact refl_full_or_untouched_ack th ams
      · rw [h2]
        exact tm_ack_full_or_untouched client th ams
    · rcases h3 with h3 | h3
      · rw [h3]
        exact refl_full_or_untouched_timeout th ts
      · rw [h3]
        exact tm_timeout_full_or_untouched client th ts
  · intro eth beacon addr slot pslot rs ams ts
    obtain ⟨h1, h2, h3⟩ := inject_ethereum_components eth beacon addr slot pslot rs ams ts
    refine ⟨?_, ?_, ?_⟩
    · rcases h1 with h1 | ⟨bn, h1⟩
      · rw [h1]
        exact refl_full_or_untouched_recv _ rs
      · rw [h1]
        exact eth_recv_full_or_untouched eth addr bn slot _ rs
    · rcases h2 with h2 | ⟨bn, h2⟩
      · rw [h2]
        exact refl_full_or_untouched_ack _ ams
      · rw [h2]
        exact eth_ack_full_or_untouched eth addr bn slot _ ams
    · rcases h3 with h3 | ⟨bn, h3⟩
      · rw [h3]
        exact refl_full_or_untouched_timeout _ ts
      · rw [h3]
        exact eth_timeout_full_or_untouched eth addr bn slot _ ts

/-- C7: a `get_proof` response with zero storage-proof entries fails
`get_commitment_proof` with the fatal `malformedResponse` kind (the
source's `.first().unwrap()` panic on the missing entry), which is
distinct from the `proofEmpty` empty-value error — not a silent skip,
not an empty-value case. -/
theorem missing_storage_proof_entry_is_fatal
    (eth_client : EthClient) (addr : String) (block_number : Nat)
    (path : List Nat) (slot : Nat) (resp : EthGetProofResponse)
    (hc : eth_client addr [storageKeyHex (evm_ics26_commitment_path path slot)]
        (blockNumberHex block_number) = .ok resp)
    (hempty : resp.storage_proof = []) :
    get_commitment_proof eth_client addr block_number path slot =
      .error .malformedResponse ∧
    InjectError.malformedResponse ≠ InjectError.proofEmpty := by
  refine ⟨?_, by simp⟩
  simp [get_commitment_proof, hc, hempty]

/-- C7 witness: a concrete client returning an entry-less response. -/
theorem missing_storage_proof_entry_is_fatal_witness :
    get_commitment_proof wEthClientNoEntries "addr" 0 [] 0 =
      .error .malformedResponse ∧
    InjectError.malformedResponse ≠ InjectError.proofEmpty :=
  missing_storage_proof_entry_is_fatal wEthClientNoEntries "addr" 0 [] 0 ⟨[]⟩ rfl rfl

/-- C9: the mock injector — a pure total function, so no I/O and no
failure — sets every recv, ack and timeout message's proof bytes to the
one fixed sentinel `b"mock"` and every proof height to the zero-value
height. -/
theorem mock_proofs_sentinel_and_zero_height
    (rs : List MsgRecvPacket) (ams : List MsgAcknowledgement)
    (ts : List MsgTimeout) :
    (∀ m ∈ (inject_mock_proofs rs ams ts).1,
       m.proof_commitment = mockProofBytes ∧
       m.proof_height = some Height.default) ∧
    (∀ m ∈ (inject_mock_proofs rs ams ts).2.1,
       m.proof_acked = mockProofBytes ∧
       m.proof_height = some Height.default) ∧
    (∀ m ∈ (inject_mock_proofs rs ams ts).2.2,
       m.proof_unreceived = mockProofBytes ∧
       m.proof_height = some Height.default) := by
  refine ⟨?_, ?_, ?_⟩ <;> intro m hm <;>
    simp only [inject_mock_proofs, List.mem_map] at hm <;>
    obtain ⟨a, -, rfl⟩ := hm <;> exact ⟨rfl, rfl⟩

/-- C9 witness: the one message of a singleton recv batch comes out with
the sentinel bytes and the zero height. -/
theorem mock_proofs_sentinel_and_zero_height_witness :
    wRecvMsgMock.proof_commitment = mockProofBytes ∧
    wRecvMsgMock.proof_height = some Height.default :=
  (mock_proofs_sentinel_and_zero_height [wRecvMsg] [] []).1
    wRecvMsgMock (by simp [inject_mock_proofs, wRecvMsgMock])

/-- C10: every injector (Tendermint, Ethereum, mock) changes at most the
proof bytes and proof height of each message: packet, signer and (for
acks) the acknowledgement survive every call, successful or failed. -/
theorem injectors_preserve_packet_signer_ack :
    (∀ (client : TmClient) (th : Height) (rs : List MsgRecvPacket)
       (ams : List MsgAcknowledgement) (ts : List MsgTimeout),
       List.Forall₂ frameRecv rs
         (inject_tendermint_proofs rs ams ts client th).1 ∧
       List.Forall₂ frameAck ams
         (inject_tendermint_proofs rs ams ts client th).2.1 ∧
       List.Forall₂ frameTimeout ts
         (inject_tendermint_proofs rs ams ts client th).2.2.1) ∧
    (∀ (eth : EthClient) (beacon : BeaconClient) (addr : String)
       (slot pslot : Nat) (rs : List MsgRecvPacket)
       (ams : List MsgAcknowledgement) (ts : List MsgTimeout),
       List.Forall₂ frameRecv rs
         (inject_ethereum_proofs rs ams ts eth beacon addr slot pslot).1 ∧
       List.Forall₂ frameAck ams
         (inject_ethereum_proofs rs ams ts eth beacon addr slot pslot).2.1 ∧
       List.Forall₂ frameTimeout ts
         (inject_ethereum_proofs rs ams ts eth beacon addr slot pslot).2.2.1) ∧
    (∀ (rs : List MsgRecvPacket) (ams : List MsgAcknowledgement)
       (ts : List MsgTimeout),
       List.Forall₂ frameRecv rs (inject_mock_proofs rs ams ts).1 ∧
       List.Forall₂ frameAck ams (inject_mock_proofs rs ams ts).2.1 ∧
       List.Forall₂ frameTimeout ts (inject_mock_proofs rs ams ts).2.2) := by
  refine ⟨?_, ?_, ?_⟩
  · intro client th rs ams ts
    obtain ⟨h1, h2, h3⟩ := inject_tendermint_components client th rs ams ts
    refine ⟨?_, ?_, ?_⟩
    · rw [h1]
      exact (tm_recv_full_or_untouched client th rs).imp
        (fullOrUntouchedRecv_frame th)
    · rcases h2 with h2 | h2
      · rw [h2]
        exact List.forall₂_same.mpr fun _ _ => ⟨rfl, rfl, rfl⟩
      · rw [h2]
        exact (tm_ack_full_or_untouched client th ams).imp
          (fullOrUntouchedAck_frame th)
    · rcases h3 with h3 | h3
      · rw [h3]
        exact List.forall₂_same.mpr fun _ _ => ⟨rfl, rfl⟩
      · rw [h3]
        exact (tm_timeout_full_or_untouched client th ts).imp
          (fullOrUntouchedTimeout_frame th)
  · intro eth beacon addr slot pslot rs ams ts
    obtain ⟨h1, h2, h3⟩ := inject_ethereum_components eth beacon addr slot pslot rs ams ts
    refine ⟨?_, ?_, ?_⟩
    · rcases h1 with h1 | ⟨bn, h1⟩
      · rw [h1]
        exact List.forall₂_same.mpr fun _ _ => ⟨rfl, rfl⟩
      · rw [h1]
        exact (eth_recv_full_or_untouched eth addr bn slot _ rs).imp
          (fullOrUntouchedRecv_frame _)
    · rcases h2 with h2 | ⟨bn, h2⟩
      · rw [h2]
        exact List.forall₂_same.mpr fun _ _ => ⟨rfl, rfl, rfl⟩
      · rw [h2]
        exact (eth_ack_full_or_untouched eth addr bn slot _ ams).imp
          (fullOrUntouchedAck_frame _)
    · rcases h3 with h3 | ⟨bn, h3⟩
      · rw [h3]
        exact List.forall₂_same.mpr fun _ _ => ⟨rfl, rfl⟩
      · rw [h3]
        exact (eth_timeout_full_or_untouched eth addr bn slot _ ts).imp
          (fullOrUntouchedTimeout_frame _)
  · intro rs ams ts
    refine ⟨?_, ?_, ?_⟩ <;> simp only [inject_mock_proofs]
    · exact forall₂_map_self _ _ _ fun m => ⟨rfl, rfl⟩
    · exact forall₂_map_self _ _ _ fun m => ⟨rfl, rfl, rfl⟩
    · exact forall₂_map_self _ _ _ fun m => ⟨rfl, rfl⟩

end IbcEureka
